import Mathlib

/-!
Shallow embedding of the CloudSweep resource-lifecycle core: the domain
entities (internal/domain/entity/scan.go and the entity files), the cleanup
orchestrator (internal/application/usecase/cleanup_resources.go,
CleanupResourcesUseCase.Execute) and the scan orchestrator
(ScanResourcesUseCase.Execute).

Modelling conventions: Go string-backed enum types stay `String`; uuid
values are modelled as strings; float64 money/carbon amounts are modelled
as exact rationals (the claims are about which values are aggregated, not
about rounding); `time.Time` bookkeeping fields (CreatedAt, UpdatedAt,
StartedAt, CompletedAt, LastSeenAt) are omitted because no embedded
operation branches on them.  Calls through the repository and provider
interfaces are modelled by explicit environment records of functions; a Go
`(T, error)` return is `Except String T` and an error-only return is
`Option String`.  Every observable side effect the use cases perform
(cleaner invocation, persistence write) is recorded in an explicit effect
trace so that frame properties are statable.
-/

namespace CloudSweep

/-- Go type `entity.CloudProvider` (a string type: "aws", "azure", "gcp"). -/
abbrev CloudProvider := String

/-- Go type `entity.PolicyAction` (a string type). -/
abbrev PolicyAction := String

/-- entity.PolicyActionDelete. -/
def PolicyActionDelete : PolicyAction := "delete"

/-- entity.PolicyActionStop. -/
def PolicyActionStop : PolicyAction := "stop"

/-- entity.PolicyActionTag. -/
def PolicyActionTag : PolicyAction := "tag"

/-- entity.PolicyActionNotify. -/
def PolicyActionNotify : PolicyAction := "notify"

/-- Go type `entity.ResourceStatus` (a string type). -/
abbrev ResourceStatus := String

/-- entity.ResourceStatusActive. -/
def ResourceStatusActive : ResourceStatus := "active"

/-- entity.ResourceStatusUnused. -/
def ResourceStatusUnused : ResourceStatus := "unused"

/-- entity.ResourceStatusDeleted. -/
def ResourceStatusDeleted : ResourceStatus := "deleted"

/-- entity.ResourceStatusExcluded. -/
def ResourceStatusExcluded : ResourceStatus := "excluded"

/-- Go type `entity.ScanStatus` (a string type). -/
abbrev ScanStatus := String

/-- entity.ScanStatusPending. -/
def ScanStatusPending : ScanStatus := "pending"

/-- entity.ScanStatusRunning. -/
def ScanStatusRunning : ScanStatus := "running"

/-- entity.ScanStatusCompleted. -/
def ScanStatusCompleted : ScanStatus := "completed"

/-- entity.ScanStatusFailed. -/
def ScanStatusFailed : ScanStatus := "failed"

/-- entity.ScanStatusCancelled. -/
def ScanStatusCancelled : ScanStatus := "cancelled"

/-- Go type `entity.ResourceType` (a string type). -/
abbrev ResourceType := String

/-- Opaque credential bytes (Go `[]byte`), forwarded verbatim to factories. -/
abbrev Credentials := List Nat

/-- entity.Resource.  Tags carry the tag set; Metadata and the time fields
are omitted (never read by the embedded operations). -/
structure Resource where
  id : String
  organizationID : String
  provider : CloudProvider
  type : ResourceType
  resourceID : String
  region : String
  name : String
  status : ResourceStatus
  tags : List (String × String)
  monthlyCost : Rat
  carbonFootprint : Rat
deriving DecidableEq

/-- Resource.MarkAsDeleted: sets status to "deleted" (UpdatedAt omitted). -/
def Resource.MarkAsDeleted (r : Resource) : Resource :=
  { r with status := ResourceStatusDeleted }

/-- Resource.MarkAsUnused: sets status to "unused" (UpdatedAt omitted). -/
def Resource.MarkAsUnused (r : Resource) : Resource :=
  { r with status := ResourceStatusUnused }

/-- Resource.IsUnused: whether status equals "unused". -/
def Resource.IsUnused (r : Resource) : Bool :=
  r.status == ResourceStatusUnused

/-- entity.Scan (time fields omitted: StartedAt/CompletedAt/CreatedAt/
UpdatedAt carry no control flow in the embedded use cases). -/
structure Scan where
  id : String
  organizationID : String
  provider : CloudProvider
  regions : List String
  resourceTypes : List ResourceType
  status : ScanStatus
  resourcesFound : Nat := 0
  unusedFound : Nat := 0
  estimatedSavings : Rat := 0
  carbonSavings : Rat := 0
  errorMessage : String := ""
deriving DecidableEq

/-- entity.NewScan: a fresh scan record with status "pending".  The Go code
draws a fresh uuid; the embedding takes the generated id as a parameter. -/
def NewScan (id orgID : String) (provider : CloudProvider) (regions : List String)
    (resourceTypes : List ResourceType) : Scan :=
  { id := id, organizationID := orgID, provider := provider, regions := regions,
    resourceTypes := resourceTypes, status := ScanStatusPending }

/-- Scan.Start: unconditionally sets status to "running" (also stamps
StartedAt/UpdatedAt in Go, omitted here). -/
def Scan.Start (s : Scan) : Scan :=
  { s with status := ScanStatusRunning }

/-- Scan.Complete: unconditionally sets status to "completed" and records
the counts and aggregate totals. -/
def Scan.Complete (s : Scan) (resourcesFound unusedFound : Nat)
    (estimatedSavings carbonSavings : Rat) : Scan :=
  { s with status := ScanStatusCompleted, resourcesFound := resourcesFound,
           unusedFound := unusedFound, estimatedSavings := estimatedSavings,
           carbonSavings := carbonSavings }

/-- Scan.Fail: unconditionally sets status to "failed" with the message. -/
def Scan.Fail (s : Scan) (errMsg : String) : Scan :=
  { s with status := ScanStatusFailed, errorMessage := errMsg }

/-- Scan.IsRunning. -/
def Scan.IsRunning (s : Scan) : Bool :=
  s.status == ScanStatusRunning

/-- Scan.IsCompleted. -/
def Scan.IsCompleted (s : Scan) : Bool :=
  s.status == ScanStatusCompleted

/-- service.CleanupResult.  Field defaults are the Go zero values, matching
struct literals in the source that omit fields. -/
structure CleanupResult where
  resourceID : String := ""
  success : Bool := false
  action : PolicyAction := ""
  errorMessage : String := ""
  costSaved : Rat := 0
  carbonSaved : Rat := 0
deriving DecidableEq

/-- service.ResourceCleaner: the per-provider cleanup capability.  Each Go
method returns `(*CleanupResult, error)`, embedded as `Except`. -/
structure ResourceCleaner where
  delete : Resource → Except String CleanupResult
  stop : Resource → Except String CleanupResult
  tag : Resource → List (String × String) → Except String CleanupResult

/-- The collaborators of CleanupResourcesUseCase: resourceRepo.GetByID and
cleanerFactory.Create.  (resourceRepo.Update is a write; it is recorded in
the effect trace rather than modelled as a query.) -/
structure CleanupEnv where
  getByID : String → Except String Resource
  cleanerFactory : CloudProvider → Credentials → Except String ResourceCleaner

/-- usecase.CleanupResourcesInput. -/
structure CleanupResourcesInput where
  organizationID : String
  resourceIDs : List String
  action : PolicyAction
  credentials : Credentials
  dryRun : Bool

/-- usecase.CleanupResourcesOutput (the CleanupReport).  Defaults are the
Go zero values of the fields of the freshly allocated output. -/
structure CleanupResourcesOutput where
  results : List CleanupResult := []
  totalCostSaved : Rat := 0
  totalCarbonSaved : Rat := 0
  successCount : Nat := 0
  failureCount : Nat := 0
deriving DecidableEq

/-- Observable side effects of a cleanup run: each Cleaner method call and
each resourceRepo write.  `resourceDelete` is in the vocabulary because
ResourceRepository exposes Delete; the use case never emits it. -/
inductive CleanupEffect where
  | cleanerDelete (r : Resource)
  | cleanerStop (r : Resource)
  | cleanerTag (r : Resource) (tags : List (String × String))
  | resourceUpdate (r : Resource)
  | resourceDelete (id : String)
deriving DecidableEq

/-- The failed result built for an unresolvable id:
`fmt.Sprintf("resource not found: %v", err)`. -/
def notFoundResult (id e : String) : CleanupResult :=
  { resourceID := id, success := false, errorMessage := "resource not found: " ++ e }

/-- One iteration of the id-resolution loop (cleanup_resources.go lines
59-71): a failed lookup appends a failed result and bumps FailureCount; a
successful lookup collects the resource. -/
def resolveStep (env : CleanupEnv) (acc : CleanupResourcesOutput × List Resource)
    (id : String) : CleanupResourcesOutput × List Resource :=
  match env.getByID id with
  | .error e =>
      ({ acc.1 with results := acc.1.results ++ [notFoundResult id e],
                    failureCount := acc.1.failureCount + 1 }, acc.2)
  | .ok r => (acc.1, acc.2 ++ [r])

/-- The whole id-resolution loop, starting from the fresh output. -/
def resolveResources (env : CleanupEnv) (ids : List String) :
    CleanupResourcesOutput × List Resource :=
  ids.foldl (resolveStep env) ({}, [])

/-- Appending one resource to the provider-keyed grouping (the Go
`resourcesByProvider[r.Provider] = append(..., r)`); groups are kept in
first-appearance order, which fixes Go's unspecified map iteration order
(no claim depends on inter-group order). -/
def insertByProvider (groups : List (CloudProvider × List Resource)) (r : Resource) :
    List (CloudProvider × List Resource) :=
  match groups with
  | [] => [(r.provider, [r])]
  | (p, g) :: rest =>
      if p = r.provider then (p, g ++ [r]) :: rest
      else (p, g) :: insertByProvider rest r

/-- Grouping of the resolved resources by provider (lines 77-81). -/
def groupByProvider (rs : List Resource) : List (CloudProvider × List Resource) :=
  rs.foldl insertByProvider []

/-- The fixed marker tag map passed to Cleaner.Tag. -/
def fixedMarkerTags : List (String × String) :=
  [("cloudsweep:marked-for-deletion", "true")]

/-- The synthesized dry-run result (lines 100-111): success, the requested
action, and the resource's own cost/carbon figures. -/
def dryRunResult (action : PolicyAction) (r : Resource) : CleanupResult :=
  { resourceID := r.id, success := true, action := action,
    costSaved := r.monthlyCost, carbonSaved := r.carbonFootprint }

/-- The failed result of the switch default branch (lines 124-129). -/
def unsupportedResult (r : Resource) : CleanupResult :=
  { resourceID := r.id, success := false, errorMessage := "unsupported action" }

/-- The switch on input.Action (lines 115-130), also recording which
Cleaner method was invoked.  In the default branch the Go `err` variable is
the nil left over from the factory call: the action is constant across the
loop, so when the default branch runs no cleaner call ever assigned `err`. -/
def invokeCleaner (cleaner : ResourceCleaner) (action : PolicyAction) (r : Resource) :
    Except String CleanupResult × List CleanupEffect :=
  if action = PolicyActionDelete then (cleaner.delete r, [.cleanerDelete r])
  else if action = PolicyActionStop then (cleaner.stop r, [.cleanerStop r])
  else if action = PolicyActionTag then
    (cleaner.tag r fixedMarkerTags, [.cleanerTag r fixedMarkerTags])
  else (.ok (unsupportedResult r), [])

/-- Lines 132-138: a cleaner error replaces the result with a failed one
carrying the error's message; otherwise the cleaner's result is used
verbatim. -/
def wrapResult (r : Resource) : Except String CleanupResult → CleanupResult
  | .ok res => res
  | .error e => { resourceID := r.id, success := false, errorMessage := e }

/-- One iteration of the per-resource loop (lines 99-152) over the
accumulated (output, effect-trace) state. -/
def cleanupStep (cleaner : ResourceCleaner) (action : PolicyAction) (dryRun : Bool)
    (acc : CleanupResourcesOutput × List CleanupEffect) (r : Resource) :
    CleanupResourcesOutput × List CleanupEffect :=
  if dryRun then
    ({ acc.1 with results := acc.1.results ++ [dryRunResult action r],
                  totalCostSaved := acc.1.totalCostSaved + r.monthlyCost,
                  totalCarbonSaved := acc.1.totalCarbonSaved + r.carbonFootprint,
                  successCount := acc.1.successCount + 1 }, acc.2)
  else
    let call := invokeCleaner cleaner action r
    let result := wrapResult r call.1
    if result.success then
      ({ acc.1 with results := acc.1.results ++ [result],
                    totalCostSaved := acc.1.totalCostSaved + result.costSaved,
                    totalCarbonSaved := acc.1.totalCarbonSaved + result.carbonSaved,
                    successCount := acc.1.successCount + 1 },
       acc.2 ++ call.2 ++ [.resourceUpdate r.MarkAsDeleted])
    else
      ({ acc.1 with results := acc.1.results ++ [result],
                    failureCount := acc.1.failureCount + 1 }, acc.2 ++ call.2)

/-- The failed result built for every resource of a provider group whose
factory call failed (lines 86-95). -/
def factoryFailResult (e : String) (r : Resource) : CleanupResult :=
  { resourceID := r.id, success := false,
    errorMessage := "failed to create cleaner: " ++ e }

/-- Processing of one provider group (lines 84-153): factory failure fails
every resource of the group; otherwise the per-resource loop runs. -/
def providerGroupStep (env : CleanupEnv) (input : CleanupResourcesInput)
    (acc : CleanupResourcesOutput × List CleanupEffect)
    (group : CloudProvider × List Resource) :
    CleanupResourcesOutput × List CleanupEffect :=
  match env.cleanerFactory group.1 input.credentials with
  | .error e =>
      (group.2.foldl (fun out r =>
        { out with results := out.results ++ [factoryFailResult e r],
                   failureCount := out.failureCount + 1 }) acc.1, acc.2)
  | .ok cleaner => group.2.foldl (cleanupStep cleaner input.action input.dryRun) acc

/-- The full return value of CleanupResourcesUseCase.Execute: the report,
the Go error return, and the effect trace. -/
structure CleanupOutcome where
  report : CleanupResourcesOutput
  err : Option String
  effects : List CleanupEffect
deriving DecidableEq

/-- CleanupResourcesUseCase.Execute (cleanup_resources.go lines 52-156).
Both return sites of the Go function return a nil error. -/
def CleanupExecute (env : CleanupEnv) (input : CleanupResourcesInput) : CleanupOutcome :=
  let resolved := resolveResources env input.resourceIDs
  if resolved.2.isEmpty then ⟨resolved.1, none, []⟩
  else
    let final := (groupByProvider resolved.2).foldl (providerGroupStep env input)
      (resolved.1, [])
    ⟨final.1, none, final.2⟩

/-- service.CloudScanner: the per-provider discovery capability.  In Go,
DetectUnused mutates resource statuses in place over the caller's slice and
returns only an error; it is embedded as returning the updated list (a Go
callee cannot resize the caller's slice, so a faithful environment returns
a list of the same length — theorems assume this where they need it). -/
structure CloudScanner where
  scanResources : List String → List ResourceType → Except String (List Resource)
  detectUnused : List Resource → Except String (List Resource)
  estimateCost : Resource → Except String Rat
  estimateCarbonFootprint : Resource → Except String Rat

/-- Modelled from the spec: the numeric value taken from an estimate call.
The Go code reads `cost, _ := scanner.EstimateCost(ctx, r)`, using whatever
value the Scanner returned alongside a possible error; the concrete Scanner
implementations are not part of this repository slice, and the spec fixes
their contract — "estimate failure leaves the numeric field at its zero
value" — so the error case contributes 0. -/
def estimateValue : Except String Rat → Rat
  | .ok v => v
  | .error _ => 0

/-- The collaborators of ScanResourcesUseCase: the generated scan id, the
scanRepo Create/Update calls (Update indexed by how many Update calls
preceded it), the scanner factory, and resourceRepo.BulkCreate. -/
structure ScanEnv where
  newScanID : String
  createScan : Scan → Option String
  updateScan : Nat → Scan → Option String
  scannerFactory : CloudProvider → Credentials → Except String CloudScanner
  bulkCreate : List Resource → Option String

/-- usecase.ScanResourcesInput. -/
structure ScanResourcesInput where
  organizationID : String
  provider : CloudProvider
  regions : List String
  resourceTypes : List ResourceType
  credentials : Credentials

/-- usecase.ScanResourcesOutput (the ScanReport). -/
structure ScanResourcesOutput where
  scanID : String
  resourcesFound : Nat
  unusedFound : Nat
  estimatedSavings : Rat
  carbonSavings : Rat
deriving DecidableEq

/-- Persistence calls a scan run performs, in order.  `scanDelete` is in
the vocabulary so that retention is statable: the use case never emits it
(ScanRepository does not even expose a Delete method). -/
inductive ScanEffect where
  | scanCreate (s : Scan)
  | scanUpdate (s : Scan)
  | resourceBulkCreate (rs : List Resource)
  | scanDelete (id : String)
deriving DecidableEq

/-- The full return value of ScanResourcesUseCase.Execute: the Go
`(*ScanResourcesOutput, error)` pair as an `Except`, plus the trace of
persistence calls. -/
structure ScanOutcome where
  result : Except String ScanResourcesOutput
  effects : List ScanEffect

/-- Stamping the requesting organization onto every discovered resource
(part_003 lines 150-153). -/
def stampOrg (orgID : String) (rs : List Resource) : List Resource :=
  rs.map fun r => { r with organizationID := orgID }

/-- The local accumulator variables of the cost/carbon loop (part_003
lines 162-176): the in-place-annotated resource slice so far, unusedCount,
totalSavings and totalCarbon. -/
structure EstimateAcc where
  resources : List Resource
  unusedCount : Nat
  totalSavings : Rat
  totalCarbon : Rat

/-- A resource with its cost and carbon fields set from the scanner's
estimates (the per-element effect of the cost/carbon loop). -/
def annotate (scanner : CloudScanner) (r : Resource) : Resource :=
  { r with monthlyCost := estimateValue (scanner.estimateCost r),
           carbonFootprint := estimateValue (scanner.estimateCarbonFootprint r) }

/-- One iteration of the cost/carbon loop: both estimates are requested,
the resource's numeric fields are set, and the totals accumulate over
resources whose final status is unused. -/
def estimateStep (scanner : CloudScanner) (acc : EstimateAcc)
    (r : Resource) : EstimateAcc :=
  let annotated := annotate scanner r
  if annotated.IsUnused then
    { resources := acc.resources ++ [annotated], unusedCount := acc.unusedCount + 1,
      totalSavings := acc.totalSavings + annotated.monthlyCost,
      totalCarbon := acc.totalCarbon + annotated.carbonFootprint }
  else
    { acc with resources := acc.resources ++ [annotated] }

/-- ScanResourcesUseCase.Execute (part_003 lines 121-198).  Failures after
the scan row exists call Scan.Fail and persist (the fail-path Update's own
error is discarded, as in the source); the scan row is never deleted. -/
def ScanExecute (env : ScanEnv) (input : ScanResourcesInput) : ScanOutcome :=
  let scan0 := NewScan env.newScanID input.organizationID input.provider
    input.regions input.resourceTypes
  match env.createScan scan0 with
  | some e => ⟨.error ("failed to create scan: " ++ e), [.scanCreate scan0]⟩
  | none =>
    let scan1 := scan0.Start
    let fx0 := [ScanEffect.scanCreate scan0, ScanEffect.scanUpdate scan1]
    match env.updateScan 0 scan1 with
    | some e => ⟨.error ("failed to update scan status: " ++ e), fx0⟩
    | none =>
      match env.scannerFactory input.provider input.credentials with
      | .error e =>
          ⟨.error ("failed to create scanner: " ++ e),
           fx0 ++ [.scanUpdate (scan1.Fail e)]⟩
      | .ok scanner =>
        match scanner.scanResources input.regions input.resourceTypes with
        | .error e =>
            ⟨.error ("failed to scan resources: " ++ e),
             fx0 ++ [.scanUpdate (scan1.Fail e)]⟩
        | .ok discovered =>
          let resources := stampOrg input.organizationID discovered
          match scanner.detectUnused resources with
          | .error e =>
              ⟨.error ("failed to detect unused resources: " ++ e),
               fx0 ++ [.scanUpdate (scan1.Fail e)]⟩
          | .ok classified =>
            let folded := classified.foldl (estimateStep scanner) ⟨[], 0, 0, 0⟩
            match env.bulkCreate folded.resources with
            | some e =>
                ⟨.error ("failed to save resources: " ++ e),
                 fx0 ++ [.resourceBulkCreate folded.resources,
                   .scanUpdate (scan1.Fail e)]⟩
            | none =>
              let scan2 := scan1.Complete folded.resources.length
                folded.unusedCount folded.totalSavings folded.totalCarbon
              let fx1 := fx0 ++ [ScanEffect.resourceBulkCreate folded.resources,
                ScanEffect.scanUpdate scan2]
              match env.updateScan 1 scan2 with
              | some e => ⟨.error ("failed to complete scan: " ++ e), fx1⟩
              | none =>
                  ⟨.ok { scanID := scan2.id,
                         resourcesFound := folded.resources.length,
                         unusedFound := folded.unusedCount,
                         estimatedSavings := folded.totalSavings,
                         carbonSavings := folded.totalCarbon }, fx1⟩

/-! Generic facts about left folds, used to propagate invariants through
the orchestrator loops. -/

theorem foldl_invariant {α σ : Type} (Inv : σ → Prop) (f : σ → α → σ)
    (hstep : ∀ s a, Inv s → Inv (f s a)) :
    ∀ (l : List α) (s : σ), Inv s → Inv (l.foldl f s) := by
  intro l
  induction l with
  | nil => intro s h; simpa using h
  | cons a l ih =>
      intro s h
      simpa using ih (f s a) (hstep s a h)

theorem foldl_proj_const {α σ β : Type} (proj : σ → β) (f : σ → α → σ)
    (hstep : ∀ s a, proj (f s a) = proj s) :
    ∀ (l : List α) (s : σ), proj (l.foldl f s) = proj s := by
  intro l
  induction l with
  | nil => intro s; simp
  | cons a l ih => intro s; simpa [hstep s a] using ih (f s a)

/-- A step function only ever appends to a list-valued component. -/
def StepExtends {α σ β : Type} (f : σ → α → σ) (proj : σ → List β) : Prop :=
  ∀ s a, ∃ d, proj (f s a) = proj s ++ d

theorem foldl_extends {α σ β : Type} {f : σ → α → σ} {proj : σ → List β}
    (h : StepExtends f proj) :
    ∀ (l : List α) (s : σ), ∃ d, proj (l.foldl f s) = proj s ++ d := by
  intro l
  induction l with
  | nil => intro s; exact ⟨[], by simp⟩
  | cons a l ih =>
      intro s
      obtain ⟨d1, hd1⟩ := h s a
      obtain ⟨d2, hd2⟩ := ih (f s a)
      exact ⟨d1 ++ d2, by simp [hd2, hd1]⟩

theorem mem_foldl_of_mem {α σ β : Type} {f : σ → α → σ} {proj : σ → List β}
    (h : StepExtends f proj) (l : List α) (s : σ) {x : β}
    (hx : x ∈ proj s) : x ∈ proj (l.foldl f s) := by
  obtain ⟨d, hd⟩ := foldl_extends h l s
  rw [hd]
  exact List.mem_append_left _ hx

/-! The aggregate-accounting invariant of a CleanupReport: the counts count
the success flags of the individual results and the totals sum the
cost/carbon of exactly the successful results. -/

def ReportInv (out : CleanupResourcesOutput) : Prop :=
  out.successCount = (out.results.filter (fun r => r.success)).length ∧
  out.failureCount = (out.results.filter (fun r => !r.success)).length ∧
  out.totalCostSaved =
    ((out.results.filter (fun r => r.success)).map (fun r => r.costSaved)).sum ∧
  out.totalCarbonSaved =
    ((out.results.filter (fun r => r.success)).map (fun r => r.carbonSaved)).sum

theorem reportInv_empty : ReportInv {} :=
  ⟨rfl, rfl, rfl, rfl⟩

theorem reportInv_append_fail {out : CleanupResourcesOutput} {res : CleanupResult}
    (h : ReportInv out) (hres : res.success = false) :
    ReportInv { out with results := out.results ++ [res],
                         failureCount := out.failureCount + 1 } := by
  obtain ⟨h1, h2, h3, h4⟩ := h
  refine ⟨?_, ?_, ?_, ?_⟩ <;>
    simp [List.filter_append, hres, h1, h2, h3, h4]

theorem reportInv_append_success {out : CleanupResourcesOutput} {res : CleanupResult}
    (h : ReportInv out) (hres : res.success = true) :
    ReportInv { out with results := out.results ++ [res],
                         totalCostSaved := out.totalCostSaved + res.costSaved,
                         totalCarbonSaved := out.totalCarbonSaved + res.carbonSaved,
                         successCount := out.successCount + 1 } := by
  obtain ⟨h1, h2, h3, h4⟩ := h
  refine ⟨?_, ?_, ?_, ?_⟩ <;>
    simp [List.filter_append, hres, h1, h2, h3, h4]

theorem reportInv_resolveStep (env : CleanupEnv)
    (acc : CleanupResourcesOutput × List Resource) (id : String)
    (h : ReportInv acc.1) : ReportInv (resolveStep env acc id).1 := by
  unfold resolveStep
  cases henv : env.getByID id with
  | error e => exact reportInv_append_fail h rfl
  | ok r => exact h

theorem reportInv_cleanupStep (cleaner : ResourceCleaner) (action : PolicyAction)
    (dryRun : Bool) (acc : CleanupResourcesOutput × List CleanupEffect)
    (r : Resource) (h : ReportInv acc.1) :
    ReportInv (cleanupStep cleaner action dryRun acc r).1 := by
  unfold cleanupStep
  by_cases hdr : dryRun
  · simp only [hdr, if_true]
    exact reportInv_append_success h rfl
  · simp only [hdr, if_false]
    by_cases hs : (wrapResult r (invokeCleaner cleaner action r).1).success
    · simp only [hs, if_true]
      exact reportInv_append_success h hs
    · simp only [hs, if_false]
      exact reportInv_append_fail h (Bool.not_eq_true _ ▸ hs)

theorem reportInv_groupStep (env : CleanupEnv) (input : CleanupResourcesInput)
    (acc : CleanupResourcesOutput × List CleanupEffect)
    (g : CloudProvider × List Resource) (h : ReportInv acc.1) :
    ReportInv (providerGroupStep env input acc g).1 := by
  unfold providerGroupStep
  cases hfac : env.cleanerFactory g.1 input.credentials with
  | error e =>
      exact foldl_invariant ReportInv _
        (fun out r hout => reportInv_append_fail hout rfl) g.2 acc.1 h
  | ok cleaner =>
      exact foldl_invariant (fun p => ReportInv p.1) _
        (fun s a hs => reportInv_cleanupStep cleaner input.action input.dryRun s a hs)
        g.2 acc h

theorem reportInv_resolveResources (env : CleanupEnv) (ids : List String) :
    ReportInv (resolveResources env ids).1 := by
  unfold resolveResources
  exact foldl_invariant (fun p => ReportInv p.1) _
    (fun s a hs => reportInv_resolveStep env s a hs) ids
    (({}, []) : CleanupResourcesOutput × List Resource) reportInv_empty

theorem reportInv_execute (env : CleanupEnv) (input : CleanupResourcesInput) :
    ReportInv (CleanupExecute env input).report := by
  cases hempty : (resolveResources env input.resourceIDs).2.isEmpty with
  | true =>
      simp only [CleanupExecute, hempty, if_true]
      exact reportInv_resolveResources env input.resourceIDs
  | false =>
      simp only [CleanupExecute, hempty, Bool.false_eq_true, if_false]
      exact foldl_invariant (fun p => ReportInv p.1) _
        (fun s a hs => reportInv_groupStep env input s a hs)
        (groupByProvider (resolveResources env input.resourceIDs).2)
        ((resolveResources env input.resourceIDs).1, ([] : List CleanupEffect))
        (reportInv_resolveResources env input.resourceIDs)

/-! Length accounting: every requested id contributes exactly one
CleanupResult to the report. -/

theorem length_filter_partition {α : Type} (p : α → Bool) (l : List α) :
    (l.filter p).length + (l.filter (fun a => !p a)).length = l.length := by
  induction l with
  | nil => rfl
  | cons a l ih =>
      cases ha : p a <;> simp [List.filter_cons, ha] <;> omega

theorem resolve_foldl_length (env : CleanupEnv) (ids : List String) :
    ∀ acc : CleanupResourcesOutput × List Resource,
      (ids.foldl (resolveStep env) acc).1.results.length
        + (ids.foldl (resolveStep env) acc).2.length
      = acc.1.results.length + acc.2.length + ids.length := by
  induction ids with
  | nil => intro acc; simp
  | cons id ids ih =>
      intro acc
      have hstep : (resolveStep env acc id).1.results.length
          + (resolveStep env acc id).2.length
          = acc.1.results.length + acc.2.length + 1 := by
        unfold resolveStep
        cases henv : env.getByID id <;> simp <;> omega
      simp only [List.foldl_cons]
      rw [ih (resolveStep env acc id)]
      simp only [List.length_cons]
      omega

theorem resolveResources_length (env : CleanupEnv) (ids : List String) :
    (resolveResources env ids).1.results.length
      + (resolveResources env ids).2.length = ids.length := by
  unfold resolveResources
  simpa using resolve_foldl_length env ids ({}, [])

theorem cleanupStep_results_length (cleaner : ResourceCleaner)
    (action : PolicyAction) (dryRun : Bool)
    (acc : CleanupResourcesOutput × List CleanupEffect) (r : Resource) :
    (cleanupStep cleaner action dryRun acc r).1.results.length
      = acc.1.results.length + 1 := by
  unfold cleanupStep
  by_cases hdr : dryRun
  · simp [hdr]
  · by_cases hs : (wrapResult r (invokeCleaner cleaner action r).1).success <;>
      simp [hdr, hs]

theorem groupStep_results_length (env : CleanupEnv) (input : CleanupResourcesInput)
    (acc : CleanupResourcesOutput × List CleanupEffect)
    (g : CloudProvider × List Resource) :
    (providerGroupStep env input acc g).1.results.length
      = acc.1.results.length + g.2.length := by
  unfold providerGroupStep
  cases hfac : env.cleanerFactory g.1 input.credentials with
  | error e =>
      have : ∀ (rs : List Resource) (out : CleanupResourcesOutput),
          (rs.foldl (fun out r =>
            { out with results := out.results ++ [factoryFailResult e r],
                       failureCount := out.failureCount + 1 }) out).results.length
          = out.results.length + rs.length := by
        intro rs
        induction rs with
        | nil => intro out; simp
        | cons r rs ih =>
            intro out
            simp only [List.foldl_cons]
            rw [ih]
            simp only [List.length_append, List.length_cons, List.length_nil]
            omega
      simpa using this g.2 acc.1
  | ok cleaner =>
      have : ∀ (rs : List Resource) (st : CleanupResourcesOutput × List CleanupEffect),
          (rs.foldl (cleanupStep cleaner input.action input.dryRun) st).1.results.length
          = st.1.results.length + rs.length := by
        intro rs
        induction rs with
        | nil => intro st; simp
        | cons r rs ih =>
            intro st
            simp only [List.foldl_cons]
            rw [ih, cleanupStep_results_length]
            simp only [List.length_cons]
            omega
      simpa using this g.2 acc

theorem insertByProvider_sumLen (r : Resource) :
    ∀ groups : List (CloudProvider × List Resource),
      ((insertByProvider groups r).map (fun g => g.2.length)).sum
        = (groups.map (fun g => g.2.length)).sum + 1 := by
  intro groups
  induction groups with
  | nil => simp [insertByProvider]
  | cons hd rest ih =>
      obtain ⟨p, g⟩ := hd
      by_cases hp : p = r.provider <;> simp [insertByProvider, hp, ih] <;> omega

theorem groupByProvider_sumLen (rs : List Resource) :
    ((groupByProvider rs).map (fun g => g.2.length)).sum = rs.length := by
  unfold groupByProvider
  have : ∀ (l : List Resource) (acc : List (CloudProvider × List Resource)),
      ((l.foldl insertByProvider acc).map (fun g => g.2.length)).sum
        = (acc.map (fun g => g.2.length)).sum + l.length := by
    intro l
    induction l with
    | nil => intro acc; simp
    | cons r l ih =>
        intro acc
        simp only [List.foldl_cons]
        rw [ih, insertByProvider_sumLen]
        simp; omega
  simpa using this rs []

theorem groupsFold_results_length (env : CleanupEnv) (input : CleanupResourcesInput) :
    ∀ (groups : List (CloudProvider × List Resource))
      (st : CleanupResourcesOutput × List CleanupEffect),
      (groups.foldl (providerGroupStep env input) st).1.results.length
        = st.1.results.length + (groups.map (fun g => g.2.length)).sum := by
  intro groups
  induction groups with
  | nil => intro st; simp
  | cons g groups ih =>
      intro st
      simp only [List.foldl_cons]
      rw [ih, groupStep_results_length]
      simp only [List.map_cons, List.sum_cons]
      omega

theorem cleanup_results_length (env : CleanupEnv) (input : CleanupResourcesInput) :
    (CleanupExecute env input).report.results.length = input.resourceIDs.length := by
  cases hempty : (resolveResources env input.resourceIDs).2.isEmpty with
  | true =>
      have hlen := resolveResources_length env input.resourceIDs
      have hz : (resolveResources env input.resourceIDs).2.length = 0 := by
        have := List.isEmpty_iff_length_eq_zero.mp hempty
        exact this
      simp only [CleanupExecute, hempty, if_true]
      show (resolveResources env input.resourceIDs).1.results.length
        = input.resourceIDs.length
      omega
  | false =>
      simp only [CleanupExecute, hempty, Bool.false_eq_true, if_false]
      show ((groupByProvider (resolveResources env input.resourceIDs).2).foldl
          (providerGroupStep env input)
          ((resolveResources env input.resourceIDs).1, [])).1.results.length
        = input.resourceIDs.length
      rw [groupsFold_results_length, groupByProvider_sumLen]
      exact resolveResources_length env input.resourceIDs

/-! Append-only behaviour of the loops: results and effects only grow, so
membership established at any point persists to the final report. -/

theorem resolveStep_extends (env : CleanupEnv) :
    StepExtends (resolveStep env) (fun p => p.1.results) := by
  intro s a
  unfold resolveStep
  cases henv : env.getByID a with
  | error e => exact ⟨[notFoundResult a e], rfl⟩
  | ok r => exact ⟨[], by simp⟩

theorem cleanupStep_extends (cleaner : ResourceCleaner) (action : PolicyAction)
    (dryRun : Bool) :
    StepExtends (cleanupStep cleaner action dryRun) (fun p => p.1.results) := by
  intro s r
  unfold cleanupStep
  by_cases hdr : dryRun
  · exact ⟨[dryRunResult action r], by simp [hdr]⟩
  · by_cases hs : (wrapResult r (invokeCleaner cleaner action r).1).success
    · exact ⟨[wrapResult r (invokeCleaner cleaner action r).1], by simp [hdr, hs]⟩
    · exact ⟨[wrapResult r (invokeCleaner cleaner action r).1], by simp [hdr, hs]⟩

theorem cleanupStep_effects_extends (cleaner : ResourceCleaner)
    (action : PolicyAction) (dryRun : Bool) :
    StepExtends (cleanupStep cleaner action dryRun) (fun p => p.2) := by
  intro s r
  unfold cleanupStep
  by_cases hdr : dryRun
  · exact ⟨[], by simp [hdr]⟩
  · by_cases hs : (wrapResult r (invokeCleaner cleaner action r).1).success
    · exact ⟨(invokeCleaner cleaner action r).2 ++
        [CleanupEffect.resourceUpdate r.MarkAsDeleted], by simp [hdr, hs]⟩
    · exact ⟨(invokeCleaner cleaner action r).2, by simp [hdr, hs]⟩

theorem groupStep_extends (env : CleanupEnv) (input : CleanupResourcesInput) :
    StepExtends (providerGroupStep env input) (fun p => p.1.results) := by
  intro s g
  unfold providerGroupStep
  cases hfac : env.cleanerFactory g.1 input.credentials with
  | error e =>
      have hstep : StepExtends
          (fun (out : CleanupResourcesOutput) (r : Resource) =>
            { out with results := out.results ++ [factoryFailResult e r],
                       failureCount := out.failureCount + 1 })
          (fun out => out.results) :=
        fun out r => ⟨[factoryFailResult e r], rfl⟩
      exact foldl_extends hstep g.2 s.1
  | ok cleaner =>
      exact foldl_extends (cleanupStep_extends cleaner input.action input.dryRun) g.2 s

theorem groupStep_effects_extends (env : CleanupEnv) (input : CleanupResourcesInput) :
    StepExtends (providerGroupStep env input) (fun p => p.2) := by
  intro s g
  unfold providerGroupStep
  cases hfac : env.cleanerFactory g.1 input.credentials with
  | error e => exact ⟨[], by simp⟩
  | ok cleaner =>
      exact foldl_extends (cleanupStep_effects_extends cleaner input.action input.dryRun)
        g.2 s

theorem cleanup_results_extends (env : CleanupEnv) (input : CleanupResourcesInput) :
    ∃ d, (CleanupExecute env input).report.results
      = (resolveResources env input.resourceIDs).1.results ++ d := by
  cases hempty : (resolveResources env input.resourceIDs).2.isEmpty with
  | true =>
      refine ⟨[], ?_⟩
      simp only [CleanupExecute, hempty, if_true]
      simp
  | false =>
      simp only [CleanupExecute, hempty, Bool.false_eq_true, if_false]
      exact foldl_extends (groupStep_extends env input) _ _

/-- C1.  The Cleanup Orchestrator never fails wholesale: for every
environment and every input — any organization, resource ids, action,
credentials and dryRun flag — Execute returns its report with a nil
top-level error, and every failure is accounted inside the report:
FailureCount counts exactly the results whose success flag is false. -/
theorem cleanup_never_returns_error (env : CleanupEnv) (input : CleanupResourcesInput) :
    (CleanupExecute env input).err = none ∧
    (CleanupExecute env input).report.failureCount
      = ((CleanupExecute env input).report.results.filter
          (fun r => !r.success)).length := by
  constructor
  · cases hempty : (resolveResources env input.resourceIDs).2.isEmpty with
    | true => simp only [CleanupExecute, hempty, if_true]
    | false => simp only [CleanupExecute, hempty, Bool.false_eq_true, if_false]
  · exact (reportInv_execute env input).2.1

/-- C6.  In every CleanupReport, SuccessCount + FailureCount equals the
number of CleanupResult entries, and the number of entries equals the
number of requested resource ids: each requested id (resolved or not)
contributes exactly one result, so unresolved ids are counted exactly
once. -/
theorem cleanup_counts_partition (env : CleanupEnv) (input : CleanupResourcesInput) :
    (CleanupExecute env input).report.successCount
        + (CleanupExecute env input).report.failureCount
      = (CleanupExecute env input).report.results.length ∧
    (CleanupExecute env input).report.results.length
      = input.resourceIDs.length := by
  refine ⟨?_, cleanup_results_length env input⟩
  obtain ⟨h1, h2, -, -⟩ := reportInv_execute env input
  rw [h1, h2]
  exact length_filter_partition _ _

/-- C7.  In every CleanupReport, TotalCostSaved is the sum of costSaved
over exactly the successful results, and TotalCarbonSaved is the sum of
carbonSaved over the successful results — for dry-run and real executions
alike (the statement quantifies over every input, in particular both
values of dryRun). -/
theorem cleanup_totals_sum_successful (env : CleanupEnv)
    (input : CleanupResourcesInput) :
    (CleanupExecute env input).report.totalCostSaved
      = (((CleanupExecute env input).report.results.filter (fun r => r.success)).map
          (fun r => r.costSaved)).sum ∧
    (CleanupExecute env input).report.totalCarbonSaved
      = (((CleanupExecute env input).report.results.filter (fun r => r.success)).map
          (fun r => r.carbonSaved)).sum :=
  ⟨(reportInv_execute env input).2.2.1, (reportInv_execute env input).2.2.2⟩

/-! Provider grouping: every resolved resource lands in the group keyed by
its own provider. -/

def inGroups (r : Resource) (groups : List (CloudProvider × List Resource)) : Prop :=
  ∃ g, (r.provider, g) ∈ groups ∧ r ∈ g

theorem inGroups_insert_self (r : Resource) :
    ∀ groups, inGroups r (insertByProvider groups r) := by
  intro groups
  induction groups with
  | nil => exact ⟨[r], by simp [insertByProvider], by simp⟩
  | cons hd rest ih =>
      obtain ⟨p, g⟩ := hd
      by_cases hp : p = r.provider
      · refine ⟨g ++ [r], ?_, by simp⟩
        simp [insertByProvider, hp]
      · obtain ⟨g', hg', hr⟩ := ih
        exact ⟨g', by simp [insertByProvider, hp, hg'], hr⟩

theorem inGroups_insert_mono (x r : Resource) :
    ∀ groups, inGroups x groups → inGroups x (insertByProvider groups r) := by
  intro groups
  induction groups with
  | nil => intro h; obtain ⟨g, hg, -⟩ := h; simp at hg
  | cons hd rest ih =>
      obtain ⟨p, g⟩ := hd
      intro h
      obtain ⟨g', hmem, hx⟩ := h
      rcases List.mem_cons.mp hmem with hhead | htail
      · have hp' : x.provider = p := congrArg Prod.fst hhead
        have hg' : g' = g := congrArg Prod.snd hhead
        subst hg'
        by_cases hp : p = r.provider
        · refine ⟨g' ++ [r], ?_, List.mem_append_left _ hx⟩
          simp [insertByProvider, hp, hp']
        · exact ⟨g', by simp [insertByProvider, hp, hp'], hx⟩
      · by_cases hp : p = r.provider
        · exact ⟨g', by simp [insertByProvider, hp, htail], hx⟩
        · obtain ⟨g'', hmem'', hx''⟩ := ih ⟨g', htail, hx⟩
          exact ⟨g'', by simp [insertByProvider, hp, hmem''], hx''⟩

theorem groupByProvider_complete (r : Resource) (rs : List Resource) (hr : r ∈ rs) :
    inGroups r (groupByProvider rs) := by
  unfold groupByProvider
  have main : ∀ (l : List Resource) (acc : List (CloudProvider × List Resource)),
      r ∈ l ∨ inGroups r acc → inGroups r (l.foldl insertByProvider acc) := by
    intro l
    induction l with
    | nil =>
        intro acc h
        rcases h with h | h
        · simp at h
        · simpa using h
    | cons a l ih =>
        intro acc h
        simp only [List.foldl_cons]
        rcases h with h | h
        · rcases List.mem_cons.mp h with rfl | hmem
          · exact ih _ (Or.inr (inGroups_insert_self r acc))
          · exact ih _ (Or.inl hmem)
        · exact ih _ (Or.inr (inGroups_insert_mono r a acc h))
  exact main rs [] (Or.inl hr)

/-! Dry-run purity: with dryRun=true no effect is ever emitted. -/

theorem cleanupStep_dry_effects (cleaner : ResourceCleaner) (action : PolicyAction)
    (acc : CleanupResourcesOutput × List CleanupEffect) (r : Resource) :
    (cleanupStep cleaner action true acc r).2 = acc.2 := by
  simp [cleanupStep]

theorem groupStep_dry_effects (env : CleanupEnv) (input : CleanupResourcesInput)
    (hdry : input.dryRun = true)
    (acc : CleanupResourcesOutput × List CleanupEffect)
    (g : CloudProvider × List Resource) :
    (providerGroupStep env input acc g).2 = acc.2 := by
  unfold providerGroupStep
  cases hfac : env.cleanerFactory g.1 input.credentials with
  | error e => rfl
  | ok cleaner =>
      rw [hdry]
      exact foldl_proj_const (fun p => p.2) _
        (fun s a => cleanupStep_dry_effects cleaner input.action s a) g.2 acc

theorem cleanup_dry_effects_nil (env : CleanupEnv) (input : CleanupResourcesInput)
    (hdry : input.dryRun = true) :
    (CleanupExecute env input).effects = [] := by
  cases hempty : (resolveResources env input.resourceIDs).2.isEmpty with
  | true => simp only [CleanupExecute, hempty, if_true]
  | false =>
      simp only [CleanupExecute, hempty, Bool.false_eq_true, if_false]
      exact foldl_proj_const (fun p => p.2) _
        (fun s a => groupStep_dry_effects env input hdry s a) _ _

/-! Membership of the synthesized dry-run result for every resolved
resource whose provider group obtained a cleaner. -/

theorem mem_results_group_fold_dry (cleaner : ResourceCleaner) (action : PolicyAction) :
    ∀ (g : List Resource) (acc : CleanupResourcesOutput × List CleanupEffect)
      (r : Resource), r ∈ g →
      dryRunResult action r ∈ (g.foldl (cleanupStep cleaner action true) acc).1.results := by
  intro g
  induction g with
  | nil => intro acc r hr; simp at hr
  | cons a g ih =>
      intro acc r hr
      simp only [List.foldl_cons]
      rcases List.mem_cons.mp hr with rfl | hmem
      · refine mem_foldl_of_mem (cleanupStep_extends cleaner action true) g _ ?_
        simp [cleanupStep]
      · exact ih _ r hmem

theorem mem_results_groups_fold_dry (env : CleanupEnv) (input : CleanupResourcesInput)
    (hdry : input.dryRun = true) (r : Resource) (cleaner : ResourceCleaner)
    (hfac : env.cleanerFactory r.provider input.credentials = .ok cleaner) :
    ∀ (groups : List (CloudProvider × List Resource))
      (acc : CleanupResourcesOutput × List CleanupEffect)
      (g : List Resource), (r.provider, g) ∈ groups → r ∈ g →
      dryRunResult input.action r
        ∈ (groups.foldl (providerGroupStep env input) acc).1.results := by
  intro groups
  induction groups with
  | nil => intro acc g hmem hr; simp at hmem
  | cons hd rest ih =>
      intro acc g hmem hr
      simp only [List.foldl_cons]
      rcases List.mem_cons.mp hmem with hhead | htail
      · refine mem_foldl_of_mem (groupStep_extends env input) rest _ ?_
        rw [← hhead]
        show dryRunResult input.action r
          ∈ (providerGroupStep env input acc (r.provider, g)).1.results
        unfold providerGroupStep
        simp only [hfac]
        rw [hdry]
        exact mem_results_group_fold_dry cleaner input.action g acc r hr
      · exact ih _ g htail hr

/-- C2.  Dry-run is side-effect-free by construction and synthesizes the
successful results: with dryRun=true the effect trace is empty — no
Cleaner method (Delete/Stop/Tag) is invoked and no resource update is
persisted, so no Resource field (in particular status) changes — and for
every resource that resolved and whose provider group's factory call
succeeded, the report contains the synthesized result with success=true,
costSaved equal to the resource's monthlyCost and carbonSaved equal to its
carbonFootprint. -/
theorem cleanup_dryRun_frame (env : CleanupEnv) (input : CleanupResourcesInput)
    (hdry : input.dryRun = true) :
    (CleanupExecute env input).effects = [] ∧
    ∀ r ∈ (resolveResources env input.resourceIDs).2,
      ∀ cleaner, env.cleanerFactory r.provider input.credentials = .ok cleaner →
        dryRunResult input.action r ∈ (CleanupExecute env input).report.results ∧
        (dryRunResult input.action r).success = true ∧
        (dryRunResult input.action r).costSaved = r.monthlyCost ∧
        (dryRunResult input.action r).carbonSaved = r.carbonFootprint := by
  refine ⟨cleanup_dry_effects_nil env input hdry, ?_⟩
  intro r hr cleaner hfac
  refine ⟨?_, rfl, rfl, rfl⟩
  have hempty : (resolveResources env input.resourceIDs).2.isEmpty = false := by
    cases h : (resolveResources env input.resourceIDs).2.isEmpty with
    | true => rw [List.isEmpty_iff.mp h] at hr; simp at hr
    | false => rfl
  simp only [CleanupExecute, hempty, Bool.false_eq_true, if_false]
  obtain ⟨g, hg, hrg⟩ := groupByProvider_complete r _ hr
  exact mem_results_groups_fold_dry env input hdry r cleaner hfac _ _ g hg hrg

/-! Non-dry-run: every successful result is followed by marking the
resource deleted and persisting the update — whatever the action was. -/

theorem mem_effects_group_fold_real (cleaner : ResourceCleaner) (action : PolicyAction) :
    ∀ (g : List Resource) (acc : CleanupResourcesOutput × List CleanupEffect)
      (r : Resource), r ∈ g →
      (wrapResult r (invokeCleaner cleaner action r).1).success = true →
      CleanupEffect.resourceUpdate r.MarkAsDeleted
        ∈ (g.foldl (cleanupStep cleaner action false) acc).2 := by
  intro g
  induction g with
  | nil => intro acc r hr _; simp at hr
  | cons a g ih =>
      intro acc r hr hsucc
      simp only [List.foldl_cons]
      rcases List.mem_cons.mp hr with rfl | hmem
      · refine mem_foldl_of_mem (cleanupStep_effects_extends cleaner action false) g _ ?_
        simp [cleanupStep, hsucc]
      · exact ih _ r hmem hsucc

theorem mem_effects_groups_fold_real (env : CleanupEnv) (input : CleanupResourcesInput)
    (hdry : input.dryRun = false) (r : Resource) (cleaner : ResourceCleaner)
    (hfac : env.cleanerFactory r.provider input.credentials = .ok cleaner)
    (hsucc : (wrapResult r (invokeCleaner cleaner input.action r).1).success = true) :
    ∀ (groups : List (CloudProvider × List Resource))
      (acc : CleanupResourcesOutput × List CleanupEffect)
      (g : List Resource), (r.provider, g) ∈ groups → r ∈ g →
      CleanupEffect.resourceUpdate r.MarkAsDeleted
        ∈ (groups.foldl (providerGroupStep env input) acc).2 := by
  intro groups
  induction groups with
  | nil => intro acc g hmem hr; simp at hmem
  | cons hd rest ih =>
      intro acc g hmem hr
      simp only [List.foldl_cons]
      rcases List.mem_cons.mp hmem with hhead | htail
      · refine mem_foldl_of_mem (groupStep_effects_extends env input) rest _ ?_
        rw [← hhead]
        show CleanupEffect.resourceUpdate r.MarkAsDeleted
          ∈ (providerGroupStep env input acc (r.provider, g)).2
        unfold providerGroupStep
        simp only [hfac]
        rw [hdry]
        exact mem_effects_group_fold_real cleaner input.action g acc r hr hsucc
      · exact ih _ g htail hr

/-- C9.  In a non-dry-run cleanup, every successful result — whichever of
delete, stop or tag produced it (the statement quantifies over the action,
and the witness exercises stop) — leads to the resource being marked with
status "deleted" and that update being persisted: marking deleted is not
restricted to the delete action. -/
theorem cleanup_success_marks_deleted (env : CleanupEnv)
    (input : CleanupResourcesInput) (r : Resource) (cleaner : ResourceCleaner)
    (hdry : input.dryRun = false)
    (hr : r ∈ (resolveResources env input.resourceIDs).2)
    (hfac : env.cleanerFactory r.provider input.credentials = .ok cleaner)
    (hsucc : (wrapResult r (invokeCleaner cleaner input.action r).1).success = true) :
    CleanupEffect.resourceUpdate r.MarkAsDeleted ∈ (CleanupExecute env input).effects ∧
    (Resource.MarkAsDeleted r).status = ResourceStatusDeleted := by
  refine ⟨?_, rfl⟩
  have hempty : (resolveResources env input.resourceIDs).2.isEmpty = false := by
    cases h : (resolveResources env input.resourceIDs).2.isEmpty with
    | true => rw [List.isEmpty_iff.mp h] at hr; simp at hr
    | false => rfl
  simp only [CleanupExecute, hempty, Bool.false_eq_true, if_false]
  obtain ⟨g, hg, hrg⟩ := groupByProvider_complete r _ hr
  exact mem_effects_groups_fold_real env input hdry r cleaner hfac hsucc _ _ g hg hrg

/-! Unresolvable ids: one immediate failed result, exclusion from all
further processing. -/

theorem mem_resolve_foldl (env : CleanupEnv) (id e : String)
    (hget : env.getByID id = .error e) :
    ∀ (ids : List String) (acc : CleanupResourcesOutput × List Resource),
      id ∈ ids →
      notFoundResult id e ∈ (ids.foldl (resolveStep env) acc).1.results := by
  intro ids
  induction ids with
  | nil => intro acc h; simp at h
  | cons a ids ih =>
      intro acc hid
      simp only [List.foldl_cons]
      rcases List.mem_cons.mp hid with rfl | hmem
      · refine mem_foldl_of_mem (resolveStep_extends env) ids _ ?_
        show notFoundResult id e ∈ (resolveStep env acc id).1.results
        unfold resolveStep
        simp [hget]
      · exact ih _ hmem

theorem resolve_foldl_pure (env : CleanupEnv) :
    ∀ (ids : List String) (acc : CleanupResourcesOutput × List Resource),
      ∀ r ∈ (ids.foldl (resolveStep env) acc).2,
        r ∈ acc.2 ∨ ∃ idr, idr ∈ ids ∧ env.getByID idr = .ok r := by
  intro ids
  induction ids with
  | nil => intro acc r hr; exact Or.inl (by simpa using hr)
  | cons a ids ih =>
      intro acc r hr
      simp only [List.foldl_cons] at hr
      rcases ih (resolveStep env acc a) r hr with hacc | ⟨idr, hmem, hok⟩
      · unfold resolveStep at hacc
        cases henv : env.getByID a with
        | error e =>
            rw [henv] at hacc
            exact Or.inl hacc
        | ok rr =>
            rw [henv] at hacc
            simp only at hacc
            rcases List.mem_append.mp hacc with h | h
            · exact Or.inl h
            · have : r = rr := by simpa using h
              subst this
              exact Or.inr ⟨a, List.mem_cons_self a ids, henv⟩
      · exact Or.inr ⟨idr, List.mem_cons_of_mem a hmem, hok⟩

/-- C8 (amended).  A requested id whose lookup fails with error e yields an
immediate failed CleanupResult whose errorMessage is "resource not found: "
followed by the lookup error (the code formats the underlying error into
the message, so it is not the bare string "resource not found"); the id
contributes nothing to the resolved set — every resolved resource comes
from a successful lookup of some requested id, so the failed id reaches no
grouping, factory call or Cleaner call — and FailureCount counts exactly
the failed results, so the single failed result of the id is counted
exactly once. -/
theorem cleanup_unresolved_id (env : CleanupEnv) (input : CleanupResourcesInput)
    (id e : String) (hid : id ∈ input.resourceIDs)
    (hget : env.getByID id = .error e) :
    notFoundResult id e ∈ (CleanupExecute env input).report.results ∧
    (notFoundResult id e).success = false ∧
    (notFoundResult id e).errorMessage = "resource not found: " ++ e ∧
    (∀ r ∈ (resolveResources env input.resourceIDs).2,
      ∃ idr, idr ∈ input.resourceIDs ∧ env.getByID idr = .ok r) ∧
    (CleanupExecute env input).report.failureCount
      = ((CleanupExecute env input).report.results.filter
          (fun res => !res.success)).length := by
  refine ⟨?_, rfl, rfl, ?_, (reportInv_execute env input).2.1⟩
  · obtain ⟨d, hd⟩ := cleanup_results_extends env input
    rw [hd]
    refine List.mem_append_left _ ?_
    exact mem_resolve_foldl env id e hget input.resourceIDs _ hid
  · intro r hr
    rcases resolve_foldl_pure env input.resourceIDs _ r hr with h | h
    · simp at h
    · exact h

/-! The shapes a dry-run report's results can take: resolution failures,
factory failures, and the synthesized successes — never the
"unsupported action" failure, which lives in the non-dry-run switch. -/

def DryShape (action : PolicyAction) (res : CleanupResult) : Prop :=
  (∃ id e, res = notFoundResult id e) ∨
  (∃ e r, res = factoryFailResult e r) ∨
  (∃ r, res = dryRunResult action r)

theorem resolve_results_shape (env : CleanupEnv) (action : PolicyAction)
    (ids : List String) :
    ∀ res ∈ (resolveResources env ids).1.results, DryShape action res := by
  unfold resolveResources
  refine foldl_invariant
    (fun p : CleanupResourcesOutput × List Resource =>
      ∀ res ∈ p.1.results, DryShape action res)
    _ ?_ ids ({}, []) (by intro res h; simp at h)
  intro s a hs res hres
  unfold resolveStep at hres
  cases henv : env.getByID a with
  | error e =>
      rw [henv] at hres
      simp only at hres
      rcases List.mem_append.mp hres with h | h
      · exact hs res h
      · have : res = notFoundResult a e := by simpa using h
        exact Or.inl ⟨a, e, this⟩
  | ok r =>
      rw [henv] at hres
      exact hs res hres

theorem dry_results_shape (env : CleanupEnv) (input : CleanupResourcesInput)
    (hdry : input.dryRun = true) :
    ∀ res ∈ (CleanupExecute env input).report.results,
      DryShape input.action res := by
  have hgroupStep : ∀ (s : CleanupResourcesOutput × List CleanupEffect)
      (g : CloudProvider × List Resource),
      (∀ res ∈ s.1.results, DryShape input.action res) →
      (∀ res ∈ (providerGroupStep env input s g).1.results,
        DryShape input.action res) := by
    intro s g hs
    unfold providerGroupStep
    cases hfac : env.cleanerFactory g.1 input.credentials with
    | error e =>
        refine foldl_invariant
          (fun out : CleanupResourcesOutput =>
            ∀ res ∈ out.results, DryShape input.action res) _ ?_ g.2 s.1 hs
        intro out r hout res hres
        simp only at hres
        rcases List.mem_append.mp hres with h | h
        · exact hout res h
        · have : res = factoryFailResult e r := by simpa using h
          exact Or.inr (Or.inl ⟨e, r, this⟩)
    | ok cleaner =>
        refine foldl_invariant
          (fun p : CleanupResourcesOutput × List CleanupEffect =>
            ∀ res ∈ p.1.results, DryShape input.action res) _ ?_ g.2 s hs
        intro p r hp res hres
        rw [hdry] at hres
        simp only [cleanupStep, if_true] at hres
        rcases List.mem_append.mp hres with h | h
        · exact hp res h
        · have : res = dryRunResult input.action r := by simpa using h
          exact Or.inr (Or.inr ⟨r, this⟩)
  cases hempty : (resolveResources env input.resourceIDs).2.isEmpty with
  | true =>
      simp only [CleanupExecute, hempty, if_true]
      exact resolve_results_shape env input.action input.resourceIDs
  | false =>
      simp only [CleanupExecute, hempty, Bool.false_eq_true, if_false]
      exact foldl_invariant
        (fun p : CleanupResourcesOutput × List CleanupEffect =>
          ∀ res ∈ p.1.results, DryShape input.action res)
        _ hgroupStep _ _ (resolve_results_shape env input.action input.resourceIDs)

theorem notFound_ne_unsupported (id e : String) :
    (notFoundResult id e).errorMessage ≠ "unsupported action" := by
  intro h
  have h2 := congrArg String.length h
  have hm : (notFoundResult id e).errorMessage = "resource not found: " ++ e := rfl
  rw [hm, String.length_append] at h2
  have e1 : ("resource not found: " : String).length = 20 := by decide
  have e2 : ("unsupported action" : String).length = 18 := by decide
  omega

theorem factoryFail_ne_unsupported (e : String) (r : Resource) :
    (factoryFailResult e r).errorMessage ≠ "unsupported action" := by
  intro h
  have h2 := congrArg String.length h
  have hm : (factoryFailResult e r).errorMessage
    = "failed to create cleaner: " ++ e := rfl
  rw [hm, String.length_append] at h2
  have e1 : ("failed to create cleaner: " : String).length = 26 := by decide
  have e2 : ("unsupported action" : String).length = 18 := by decide
  omega

/-- C10.  With dryRun=true the action value is never validated: whatever
the action string is — including values like "archive" that the non-dry-run
switch rejects — every resolved resource in a group whose factory call
succeeded yields the synthesized success=true result, and no result of a
dry-run report can carry the "unsupported action" failure (the failed
results of a dry-run report are exactly resolution and factory failures);
the unsupported-action failure can only arise in the dryRun=false switch. -/
theorem cleanup_dryRun_skips_action_validation (env : CleanupEnv)
    (input : CleanupResourcesInput) (hdry : input.dryRun = true) :
    (∀ r ∈ (resolveResources env input.resourceIDs).2,
      ∀ cleaner, env.cleanerFactory r.provider input.credentials = .ok cleaner →
        dryRunResult input.action r ∈ (CleanupExecute env input).report.results ∧
        (dryRunResult input.action r).success = true) ∧
    (∀ res ∈ (CleanupExecute env input).report.results,
      res.success = false → res.errorMessage ≠ "unsupported action") := by
  constructor
  · intro r hr cleaner hfac
    refine ⟨?_, rfl⟩
    have hempty : (resolveResources env input.resourceIDs).2.isEmpty = false := by
      cases h : (resolveResources env input.resourceIDs).2.isEmpty with
      | true => rw [List.isEmpty_iff.mp h] at hr; simp at hr
      | false => rfl
    simp only [CleanupExecute, hempty, Bool.false_eq_true, if_false]
    obtain ⟨g, hg, hrg⟩ := groupByProvider_complete r _ hr
    exact mem_results_groups_fold_dry env input hdry r cleaner hfac _ _ g hg hrg
  · intro res hres hfail
    rcases dry_results_shape env input hdry res hres with
      ⟨id, e, rfl⟩ | ⟨e, r, rfl⟩ | ⟨r, rfl⟩
    · exact notFound_ne_unsupported id e
    · exact factoryFail_ne_unsupported e r
    · simp [dryRunResult] at hfail

/-! The scan orchestrator's persistence trace: the scan row is never
deleted, and the statuses it persists after creation are exactly running,
completed and failed. -/

theorem scan_no_delete_effect (env : ScanEnv) (input : ScanResourcesInput) :
    ∀ i, ScanEffect.scanDelete i ∉ (ScanExecute env input).effects := by
  intro i
  simp only [ScanExecute]
  split
  · simp
  · split
    · simp
    · split
      · simp
      · split
        · simp
        · split
          · simp
          · split
            · simp
            · split <;> simp

theorem scanUpdate_statuses (env : ScanEnv) (input : ScanResourcesInput) :
    ∀ s, ScanEffect.scanUpdate s ∈ (ScanExecute env input).effects →
      s.status = ScanStatusRunning ∨ s.status = ScanStatusCompleted ∨
      s.status = ScanStatusFailed := by
  intro s hs
  simp only [ScanExecute] at hs
  repeat' split at hs
  all_goals simp at hs
  all_goals
    first
      | (obtain rfl := hs)
      | (obtain rfl | rfl := hs)
  all_goals
    first
      | exact Or.inl rfl
      | exact Or.inr (Or.inl rfl)
      | exact Or.inr (Or.inr rfl)

/-- A concrete scan record sitting in the terminal state "completed", used
to exercise the entity transition methods. -/
def completedScan : Scan :=
  { id := "scan-1", organizationID := "org-1", provider := "aws",
    regions := ["us-east-1"], resourceTypes := ["ec2_instance"],
    status := ScanStatusCompleted }

/-- C3 counterexample.  The claim says that once a Scan is in a terminal
state (completed/failed/cancelled), applying any transition method leaves
its status unchanged.  The entity methods are unguarded setters: Start on
a completed scan moves it to "running", and Complete on a cancelled scan
moves it to "completed". -/
theorem scan_terminal_not_frozen_cex :
    completedScan.status = ScanStatusCompleted ∧
    (Scan.Start completedScan).status = ScanStatusRunning ∧
    (Scan.Start completedScan).status ≠ completedScan.status ∧
    (Scan.Complete { completedScan with status := ScanStatusCancelled } 0 0 0 0).status
      ≠ ScanStatusCancelled := by
  refine ⟨rfl, rfl, ?_, ?_⟩ <;> decide

/-- C3 (amended).  The Scan entity's transition methods are unguarded
setters: NewScan creates a scan with status "pending", and Start, Complete
and Fail unconditionally set status to "running", "completed" and "failed"
respectively, whatever the previous status was.  The pending → running →
{completed | failed} discipline is realized by the orchestrator's calling
order — every status the scan orchestrator persists after creating the
pending row is running, completed or failed (and "cancelled" is only ever
written by an external request, not by any entity method or by the
orchestrator) — but the entity does not freeze terminal states: applying a
transition method to a completed/failed/cancelled scan does change its
status. -/
theorem scan_transition_methods_unguarded :
    (∀ (id orgID : String) (p : CloudProvider) (rg : List String)
       (ts : List ResourceType), (NewScan id orgID p rg ts).status = ScanStatusPending) ∧
    (∀ s : Scan, (Scan.Start s).status = ScanStatusRunning) ∧
    (∀ (s : Scan) (a b : Nat) (c d : Rat),
      (Scan.Complete s a b c d).status = ScanStatusCompleted) ∧
    (∀ (s : Scan) (m : String), (Scan.Fail s m).status = ScanStatusFailed) ∧
    (∀ (env : ScanEnv) (input : ScanResourcesInput) (s : Scan),
      ScanEffect.scanUpdate s ∈ (ScanExecute env input).effects →
        s.status = ScanStatusRunning ∨ s.status = ScanStatusCompleted ∨
        s.status = ScanStatusFailed) :=
  ⟨fun _ _ _ _ _ => rfl, fun _ => rfl, fun _ _ _ _ _ => rfl, fun _ _ => rfl,
   fun env input => scanUpdate_statuses env input⟩

/-- C4.  Once the scan row exists and is running, a Provider Factory
failure or a discovery failure transitions the Scan to "failed" carrying
that error's message, persists the failed record (the fail-path Update
appears in the trace), and makes the call return an error; on no path is
the scan row ever deleted. -/
theorem scan_failure_paths (env : ScanEnv) (input : ScanResourcesInput) (s0 : Scan)
    (hs0 : s0 = NewScan env.newScanID input.organizationID input.provider
      input.regions input.resourceTypes)
    (hc : env.createScan s0 = none)
    (hu : env.updateScan 0 s0.Start = none) :
    (∀ e, env.scannerFactory input.provider input.credentials = .error e →
      (ScanExecute env input).result = .error ("failed to create scanner: " ++ e) ∧
      ScanEffect.scanUpdate (s0.Start.Fail e) ∈ (ScanExecute env input).effects ∧
      (s0.Start.Fail e).status = ScanStatusFailed ∧
      (s0.Start.Fail e).errorMessage = e) ∧
    (∀ scanner e, env.scannerFactory input.provider input.credentials = .ok scanner →
      scanner.scanResources input.regions input.resourceTypes = .error e →
      (ScanExecute env input).result = .error ("failed to scan resources: " ++ e) ∧
      ScanEffect.scanUpdate (s0.Start.Fail e) ∈ (ScanExecute env input).effects ∧
      (s0.Start.Fail e).status = ScanStatusFailed ∧
      (s0.Start.Fail e).errorMessage = e) ∧
    (∀ i, ScanEffect.scanDelete i ∉ (ScanExecute env input).effects) := by
  subst hs0
  refine ⟨?_, ?_, scan_no_delete_effect env input⟩
  · intro e hf
    simp only [ScanExecute, hc, hu, hf]
    exact ⟨by trivial, by simp, rfl, rfl⟩
  · intro scanner e hf hd
    simp only [ScanExecute, hc, hu, hf, hd]
    exact ⟨by trivial, by simp, rfl, rfl⟩

/-! Characterization of the cost/carbon loop: it annotates every resource
with its estimates and accumulates counts and totals over exactly the
resources whose final status is unused. -/

theorem estimateFold_resources (scanner : CloudScanner) :
    ∀ (rs : List Resource) (acc : EstimateAcc),
      (rs.foldl (estimateStep scanner) acc).resources
        = acc.resources ++ rs.map (annotate scanner) := by
  intro rs
  induction rs with
  | nil => intro acc; simp
  | cons r rs ih =>
      intro acc
      simp only [List.foldl_cons]
      rw [ih]
      unfold estimateStep
      by_cases h : (annotate scanner r).IsUnused <;> simp [h]

theorem estimateFold_unusedCount (scanner : CloudScanner) :
    ∀ (rs : List Resource) (acc : EstimateAcc),
      (rs.foldl (estimateStep scanner) acc).unusedCount
        = acc.unusedCount
          + ((rs.map (annotate scanner)).filter Resource.IsUnused).length := by
  intro rs
  induction rs with
  | nil => intro acc; simp
  | cons r rs ih =>
      intro acc
      simp only [List.foldl_cons]
      rw [ih]
      unfold estimateStep
      by_cases h : (annotate scanner r).IsUnused <;>
        (simp [h, List.filter_cons]; try omega)

theorem estimateFold_totalSavings (scanner : CloudScanner) :
    ∀ (rs : List Resource) (acc : EstimateAcc),
      (rs.foldl (estimateStep scanner) acc).totalSavings
        = acc.totalSavings
          + (((rs.map (annotate scanner)).filter Resource.IsUnused).map
              (fun r => r.monthlyCost)).sum := by
  intro rs
  induction rs with
  | nil => intro acc; simp
  | cons r rs ih =>
      intro acc
      simp only [List.foldl_cons]
      rw [ih]
      unfold estimateStep
      by_cases h : (annotate scanner r).IsUnused <;>
        simp [h, List.filter_cons, add_assoc]

theorem estimateFold_totalCarbon (scanner : CloudScanner) :
    ∀ (rs : List Resource) (acc : EstimateAcc),
      (rs.foldl (estimateStep scanner) acc).totalCarbon
        = acc.totalCarbon
          + (((rs.map (annotate scanner)).filter Resource.IsUnused).map
              (fun r => r.carbonFootprint)).sum := by
  intro rs
  induction rs with
  | nil => intro acc; simp
  | cons r rs ih =>
      intro acc
      simp only [List.foldl_cons]
      rw [ih]
      unfold estimateStep
      by_cases h : (annotate scanner r).IsUnused <;>
        simp [h, List.filter_cons, add_assoc]

/-- C5.  When every fallible step succeeds — scan row created, started and
persisted, factory ok, discovery ok, unused-classification ok (hlen is the
Go slice invariant: in-place classification cannot resize the caller's
slice), bulk persist ok, final persist ok — the returned ScanReport has
resourcesFound equal to the number of discovered resources, unusedFound
equal to the number of resources whose final status is unused, and
estimatedSavings/carbonSavings equal to the sums of the cost/carbon
estimates over exactly the unused resources.  The estimate calls are
nowhere constrained to succeed: a failing estimate contributes the zero
value to the resource's numeric field (last two conjuncts) and does not
abort the scan. -/
theorem scan_success_report (env : ScanEnv) (input : ScanResourcesInput)
    (s0 : Scan) (scanner : CloudScanner) (discovered classified : List Resource)
    (hs0 : s0 = NewScan env.newScanID input.organizationID input.provider
      input.regions input.resourceTypes)
    (hc : env.createScan s0 = none)
    (hu0 : env.updateScan 0 s0.Start = none)
    (hf : env.scannerFactory input.provider input.credentials = .ok scanner)
    (hd : scanner.scanResources input.regions input.resourceTypes = .ok discovered)
    (hdet : scanner.detectUnused (stampOrg input.organizationID discovered)
      = .ok classified)
    (hlen : classified.length = discovered.length)
    (hbulk : env.bulkCreate (classified.map (annotate scanner)) = none)
    (hu1 : env.updateScan 1 (Scan.Complete s0.Start
        (classified.map (annotate scanner)).length
        ((classified.map (annotate scanner)).filter Resource.IsUnused).length
        ((((classified.map (annotate scanner)).filter Resource.IsUnused).map
            (fun r => r.monthlyCost)).sum)
        ((((classified.map (annotate scanner)).filter Resource.IsUnused).map
            (fun r => r.carbonFootprint)).sum)) = none) :
    (ScanExecute env input).result = .ok
      { scanID := env.newScanID,
        resourcesFound := discovered.length,
        unusedFound :=
          ((classified.map (annotate scanner)).filter Resource.IsUnused).length,
        estimatedSavings :=
          (((classified.map (annotate scanner)).filter Resource.IsUnused).map
            (fun r => r.monthlyCost)).sum,
        carbonSavings :=
          (((classified.map (annotate scanner)).filter Resource.IsUnused).map
            (fun r => r.carbonFootprint)).sum } ∧
    (∀ r e, scanner.estimateCost r = .error e →
      (annotate scanner r).monthlyCost = 0) ∧
    (∀ r e, scanner.estimateCarbonFootprint r = .error e →
      (annotate scanner r).carbonFootprint = 0) := by
  subst hs0
  refine ⟨?_, ?_, ?_⟩
  · have hres := estimateFold_resources scanner classified ⟨[], 0, 0, 0⟩
    have hcount := estimateFold_unusedCount scanner classified ⟨[], 0, 0, 0⟩
    have hsav := estimateFold_totalSavings scanner classified ⟨[], 0, 0, 0⟩
    have hcarb := estimateFold_totalCarbon scanner classified ⟨[], 0, 0, 0⟩
    simp only [List.nil_append] at hres
    simp only [zero_add] at hcount hsav hcarb
    simp only [ScanExecute, hc, hu0, hf, hd, hdet, hres, hcount, hsav, hcarb,
      hbulk, hu1]
    simp only [Scan.Complete, Scan.Start, NewScan]
    rw [List.length_map, hlen]
  · intro r e he
    simp [annotate, estimateValue, he]
  · intro r e he
    simp [annotate, estimateValue, he]

/-! Concrete fixtures: a tiny environment with one resolvable AWS resource
and one missing id, exercised by the witnesses below. -/

/-- A resolvable unused AWS resource costing 45.5/month, 12.5 kg carbon. -/
def rA : Resource :=
  { id := "res-a", organizationID := "org-1", provider := "aws",
    type := "ec2_instance", resourceID := "i-0a", region := "us-east-1",
    name := "a", status := ResourceStatusUnused, tags := [],
    monthlyCost := mkRat 91 2, carbonFootprint := mkRat 25 2 }

/-- A successful CleanupResult as a well-behaved cleaner would build it. -/
def okResult (a : PolicyAction) (r : Resource) : CleanupResult :=
  { resourceID := r.id, success := true, action := a,
    costSaved := r.monthlyCost, carbonSaved := r.carbonFootprint }

/-- A cleaner whose Delete/Stop/Tag all succeed. -/
def cleanerW : ResourceCleaner :=
  { delete := fun r => .ok (okResult PolicyActionDelete r),
    stop := fun r => .ok (okResult PolicyActionStop r),
    tag := fun r _ => .ok (okResult PolicyActionTag r) }

/-- Lookup resolves only "res-a"; the factory serves only "aws". -/
def envW : CleanupEnv :=
  { getByID := fun id =>
      if id = "res-a" then .ok rA else .error "record not found",
    cleanerFactory := fun p _ =>
      if p = "aws" then .ok cleanerW else .error "unsupported provider" }

def inputDryW : CleanupResourcesInput :=
  { organizationID := "org-1", resourceIDs := ["res-a", "res-missing"],
    action := PolicyActionDelete, credentials := [], dryRun := true }

def inputStopW : CleanupResourcesInput :=
  { organizationID := "org-1", resourceIDs := ["res-a"],
    action := PolicyActionStop, credentials := [], dryRun := false }

def inputArchiveW : CleanupResourcesInput :=
  { organizationID := "org-1", resourceIDs := ["res-a"],
    action := "archive", credentials := [], dryRun := true }

def inputMissW : CleanupResourcesInput :=
  { organizationID := "org-1", resourceIDs := ["res-missing"],
    action := PolicyActionDelete, credentials := [], dryRun := false }

/-- C2 witness: the dry-run hypotheses are satisfiable — on the concrete
environment the trace is empty and the synthesized result for the resolved
resource is in the report. -/
theorem cleanup_dryRun_frame_witness :
    (CleanupExecute envW inputDryW).effects = [] ∧
    dryRunResult PolicyActionDelete rA ∈ (CleanupExecute envW inputDryW).report.results ∧
    (dryRunResult PolicyActionDelete rA).success = true :=
  ⟨(cleanup_dryRun_frame envW inputDryW rfl).1,
   ((cleanup_dryRun_frame envW inputDryW rfl).2 rA (by decide) cleanerW rfl).1,
   ((cleanup_dryRun_frame envW inputDryW rfl).2 rA (by decide) cleanerW rfl).2.1⟩

/-- C8 counterexample.  The claim as stated predicts the failed result's
errorMessage is the bare string "resource not found"; the code formats the
lookup error into the message, so on a concrete missing id the message is
"resource not found: record not found", which differs from the claimed
string. -/
theorem cleanup_notFound_message_cex :
    (CleanupExecute envW inputMissW).report.results.map (fun r => r.errorMessage)
      = ["resource not found: record not found"] ∧
    ("resource not found: record not found" : String) ≠ "resource not found" := by
  exact ⟨by decide, by decide⟩

/-- C8 witness: the amended statement applied at the concrete missing id. -/
theorem cleanup_unresolved_id_witness :
    notFoundResult "res-missing" "record not found"
      ∈ (CleanupExecute envW inputMissW).report.results ∧
    (notFoundResult "res-missing" "record not found").success = false ∧
    (CleanupExecute envW inputMissW).report.failureCount
      = ((CleanupExecute envW inputMissW).report.results.filter
          (fun res => !res.success)).length :=
  ⟨(cleanup_unresolved_id envW inputMissW "res-missing" "record not found"
      (by decide) rfl).1,
   (cleanup_unresolved_id envW inputMissW "res-missing" "record not found"
      (by decide) rfl).2.1,
   (cleanup_unresolved_id envW inputMissW "res-missing" "record not found"
      (by decide) rfl).2.2.2.2⟩

/-- C9 witness: a successful non-dry-run Stop — not Delete — still marks
the resource deleted and persists the update. -/
theorem cleanup_success_marks_deleted_witness :
    CleanupEffect.resourceUpdate rA.MarkAsDeleted
      ∈ (CleanupExecute envW inputStopW).effects ∧
    (Resource.MarkAsDeleted rA).status = ResourceStatusDeleted :=
  cleanup_success_marks_deleted envW inputStopW rA cleanerW rfl (by decide) rfl
    (by decide)

/-- C10 witness: with dryRun=true and the unsupported action "archive" the
resolved resource still yields a success=true result. -/
theorem cleanup_dryRun_skips_action_validation_witness :
    dryRunResult "archive" rA ∈ (CleanupExecute envW inputArchiveW).report.results ∧
    (dryRunResult "archive" rA).success = true :=
  (cleanup_dryRun_skips_action_validation envW inputArchiveW rfl).1
    rA (by decide) cleanerW rfl

/-! Concrete scan fixtures: one environment whose factory fails and one in
which every step succeeds on three discovered resources, exactly one of
which is classified unused (cost 45.5, carbon 12.5); the other two have
failing estimates. -/

def scanInputW : ScanResourcesInput :=
  { organizationID := "org-1", provider := "aws", regions := ["us-east-1"],
    resourceTypes := ["ec2_instance"], credentials := [] }

def scanEnvFailW : ScanEnv :=
  { newScanID := "scan-9",
    createScan := fun _ => none,
    updateScan := fun _ _ => none,
    scannerFactory := fun _ _ => .error "bad credentials",
    bulkCreate := fun _ => none }

def mkDiscovered (id name : String) : Resource :=
  { id := id, organizationID := "", provider := "aws", type := "ec2_instance",
    resourceID := id, region := "us-east-1", name := name,
    status := ResourceStatusActive, tags := [], monthlyCost := 0,
    carbonFootprint := 0 }

def discoveredW : List Resource :=
  [mkDiscovered "d1" "one", mkDiscovered "d2" "two", mkDiscovered "d3" "three"]

def scannerW : CloudScanner :=
  { scanResources := fun _ _ => .ok discoveredW,
    detectUnused := fun rs =>
      .ok (rs.map (fun r => if r.id = "d1" then r.MarkAsUnused else r)),
    estimateCost := fun r =>
      if r.id = "d1" then .ok (mkRat 91 2) else .error "no cost data",
    estimateCarbonFootprint := fun r =>
      if r.id = "d1" then .ok (mkRat 25 2) else .error "no carbon data" }

def scanEnvOkW : ScanEnv :=
  { newScanID := "scan-1",
    createScan := fun _ => none,
    updateScan := fun _ _ => none,
    scannerFactory := fun _ _ => .ok scannerW,
    bulkCreate := fun _ => none }

def classifiedW : List Resource :=
  (stampOrg "org-1" discoveredW).map (fun r => if r.id = "d1" then r.MarkAsUnused else r)

def annotatedW : List Resource := classifiedW.map (annotate scannerW)

/-- C3 witness: the unguarded-setter statements applied at concrete scans —
Start moves even a completed scan to "running", and the status persisted
by a concrete orchestrator run is one of running/completed/failed. -/
theorem scan_transition_methods_unguarded_witness :
    (Scan.Start completedScan).status = ScanStatusRunning ∧
    ((NewScan "scan-9" "org-1" "aws" ["us-east-1"] ["ec2_instance"]).Start.status
        = ScanStatusRunning ∨
      (NewScan "scan-9" "org-1" "aws" ["us-east-1"] ["ec2_instance"]).Start.status
        = ScanStatusCompleted ∨
      (NewScan "scan-9" "org-1" "aws" ["us-east-1"] ["ec2_instance"]).Start.status
        = ScanStatusFailed) :=
  ⟨scan_transition_methods_unguarded.2.1 completedScan,
   scan_transition_methods_unguarded.2.2.2.2 scanEnvFailW scanInputW
     (NewScan "scan-9" "org-1" "aws" ["us-east-1"] ["ec2_instance"]).Start
     (by decide)⟩

/-- C4 witness: on a concrete environment whose factory rejects the
credentials, the run returns the factory error and the trace persists the
failed scan. -/
theorem scan_failure_paths_witness :
    (ScanExecute scanEnvFailW scanInputW).result
      = .error ("failed to create scanner: " ++ "bad credentials") ∧
    ScanEffect.scanUpdate
        ((NewScan "scan-9" "org-1" "aws" ["us-east-1"] ["ec2_instance"]).Start.Fail
          "bad credentials")
      ∈ (ScanExecute scanEnvFailW scanInputW).effects :=
  have h := (scan_failure_paths scanEnvFailW scanInputW
    (NewScan "scan-9" "org-1" "aws" ["us-east-1"] ["ec2_instance"])
    rfl rfl rfl).1 "bad credentials" rfl
  ⟨h.1, h.2.1⟩

/-- C5 witness: the all-steps-succeed hypotheses are satisfiable; on the
concrete scenario the report counts 3 discovered resources and 1 unused,
and the totals range over exactly the unused resource. -/
theorem scan_success_report_witness :
    (ScanExecute scanEnvOkW scanInputW).result = .ok
      { scanID := "scan-1",
        resourcesFound := discoveredW.length,
        unusedFound := (annotatedW.filter Resource.IsUnused).length,
        estimatedSavings :=
          ((annotatedW.filter Resource.IsUnused).map (fun r => r.monthlyCost)).sum,
        carbonSavings :=
          ((annotatedW.filter Resource.IsUnused).map
            (fun r => r.carbonFootprint)).sum } ∧
    discoveredW.length = 3 ∧
    (annotatedW.filter Resource.IsUnused).length = 1 ∧
    (annotatedW.filter Resource.IsUnused).map (fun r => r.monthlyCost)
      = [mkRat 91 2] ∧
    (annotatedW.filter Resource.IsUnused).map (fun r => r.carbonFootprint)
      = [mkRat 25 2] :=
  ⟨(scan_success_report scanEnvOkW scanInputW
      (NewScan "scan-1" "org-1" "aws" ["us-east-1"] ["ec2_instance"])
      scannerW discoveredW classifiedW
      rfl rfl rfl rfl rfl rfl (by decide) rfl rfl).1,
   by decide, by decide, by decide, by decide⟩

end CloudSweep
